import Mathlib

/-!
Verification of the connection resolver and block-cursor poller of the
`n8n-nodes-ethereum` connector.

The definitions below are a shallow embedding of the relevant TypeScript
source files:

* `nodes/Ethereum/Ethereum.node.ts` — the trigger's `poll` method
  (block-cursor state machine, token/NFT transfer filters);
* `src/transport/index.ts` — `buildRpcUrl` and `resolveAddress`;
* `src/types.ts` — the `NETWORKS` table and related types.

JavaScript numbers holding block heights are modelled as `Int`; optional
string credential fields are modelled as `String` with `""` playing the
role of a missing/falsy value (JS `undefined` and `""` are both falsy in
every guard the embedded code uses).
-/

namespace EthereumNode

/-! ### Poll cursor engine

Embedding of `EthereumTrigger.poll` in `nodes/Ethereum/Ethereum.node.ts`
(lines 3402–3694), restricted to its cursor arithmetic: reading the
persisted `staticData.lastBlock`, seeding it on first run, the idle
short-circuit, the `[fromBlock, toBlock]` range computation, and the
watermark update on both the success and the error path.  The event query
itself is abstracted as an outcome bit (`queryFails`): the code runs the
query inside a `try` block whose `catch` still writes
`staticData.lastBlock = toBlock` and re-throws.
-/

/-- Result of one poll cycle, as seen by the caller: `noNew` models the
`return null` taken when there are no new blocks; `ok f t` models a cycle
that processed the range `[f, t]` and returned normally; `errored f t`
models a cycle whose event query threw after the range `[f, t]` had been
computed (the error is re-thrown to the caller). -/
inductive PollResult where
  | noNew : PollResult
  | ok (fromBlock toBlock : Int) : PollResult
  | errored (fromBlock toBlock : Int) : PollResult
deriving DecidableEq, Repr

/-- Per-cycle environment and configuration of `poll`: the chain head
returned by `getBlockNumber`, the raw `options.batchSize` and
`options.startBlock` numbers (`0` when the option is unset, as in the
node's defaults), and whether the event query throws in this cycle. -/
structure PollInput where
  currentBlock : Int
  batchSize : Int
  startBlock : Int
  queryFails : Bool
deriving DecidableEq, Repr

/-- `const batchSize = (options.batchSize as number) || 100` — JS `||`
replaces the falsy value `0` by the default `100`. -/
def effBatchSize (b : Int) : Int := if b = 0 then 100 else b

/-- First-run seeding: `lastBlock = startBlock > 0 ? startBlock - 1 :
currentBlock - 1` (Ethereum.node.ts line 3420). -/
def seedLastBlock (startBlock currentBlock : Int) : Int :=
  if 0 < startBlock then startBlock - 1 else currentBlock - 1

/-- One poll cycle.  Takes the persisted `staticData.lastBlock` (`none`
before the first run) and the cycle's input; returns the persisted value
after the cycle together with the cycle's visible result.

Mirrors `poll`: initialize `lastBlock` if unset (writing it back); if
`currentBlock <= lastBlock` return `null`; otherwise compute
`fromBlock = lastBlock + 1`,
`toBlock = Math.min(currentBlock, fromBlock + batchSize - 1)`, run the
event query, and set `staticData.lastBlock = toBlock` on success and on
error alike (the `catch` block re-throws after writing). -/
def pollCycle (last : Option Int) (inp : PollInput) : Option Int × PollResult :=
  let lastBlock : Int :=
    match last with
    | some l => l
    | none => seedLastBlock inp.startBlock inp.currentBlock
  if inp.currentBlock ≤ lastBlock then
    (some lastBlock, .noNew)
  else
    let fromBlock := lastBlock + 1
    let toBlock := min inp.currentBlock (fromBlock + effBatchSize inp.batchSize - 1)
    if inp.queryFails then
      (some toBlock, .errored fromBlock toBlock)
    else
      (some toBlock, .ok fromBlock toBlock)

/-- The persisted watermark after a sequence of poll cycles. -/
def runPoll (last : Option Int) (inps : List PollInput) : Option Int :=
  inps.foldl (fun st inp => (pollCycle st inp).1) last

/-- Helper: a single cycle started from a set watermark leaves a set
watermark that is at least as large, provided the configured batch size
is non-negative (the node's numeric option; `0` selects the default
`100`). -/
theorem pollCycle_mono (w : Int) (inp : PollInput) (hb : 0 ≤ inp.batchSize) :
    ∃ w', (pollCycle (some w) inp).1 = some w' ∧ w ≤ w' := by
  unfold pollCycle
  by_cases hidle : inp.currentBlock ≤ w
  · exact ⟨w, by simp [hidle], le_refl w⟩
  · push_neg at hidle
    have heff : 1 ≤ effBatchSize inp.batchSize := by
      unfold effBatchSize
      rcases eq_or_ne inp.batchSize 0 with h0 | h0
      · simp [h0]
      · have : 1 ≤ inp.batchSize := lt_of_le_of_ne hb (Ne.symm h0)
        simpa [h0] using this
    refine ⟨min inp.currentBlock (w + 1 + effBatchSize inp.batchSize - 1), ?_, ?_⟩
    · by_cases hf : inp.queryFails <;> simp [hidle, not_le.mpr hidle, hf]
    · have h1 : w ≤ inp.currentBlock := le_of_lt hidle
      have h2 : w ≤ w + 1 + effBatchSize inp.batchSize - 1 := by omega
      exact le_min (by omega) h2

/-- Claim C1: for every sequence of poll cycles (any mix of idle cycles,
successful processing cycles, and processing cycles whose event query
throws), once the `lastProcessedBlock` watermark is set it never
decreases: starting from any set watermark `w`, after any sequence of
cycles with non-negative configured batch sizes the watermark is still
set and is at least `w`. -/
theorem runPoll_watermark_monotone (w : Int) (inps : List PollInput)
    (hb : ∀ inp ∈ inps, 0 ≤ inp.batchSize) :
    ∃ w', runPoll (some w) inps = some w' ∧ w ≤ w' := by
  induction inps generalizing w with
  | nil => exact ⟨w, rfl, le_refl w⟩
  | cons inp rest ih =>
    obtain ⟨w1, h1, hle1⟩ := pollCycle_mono w inp (hb inp (List.mem_cons_self inp rest))
    obtain ⟨w2, h2, hle2⟩ := ih w1 (fun i hi => hb i (List.mem_cons_of_mem inp hi))
    refine ⟨w2, ?_, le_trans hle1 hle2⟩
    simp only [runPoll, List.foldl_cons] at h2 ⊢
    rw [h1]
    exact h2

/-- Witness for C1 at a concrete mix of an idle cycle, a successful
processing cycle and an errored processing cycle. -/
theorem runPoll_watermark_monotone_witness :
    (∀ inp ∈ [PollInput.mk 5 0 0 false, PollInput.mk 8 2 0 false, PollInput.mk 9 1 0 true],
      0 ≤ inp.batchSize) ∧
    ∃ w', runPoll (some 5)
        [PollInput.mk 5 0 0 false, PollInput.mk 8 2 0 false, PollInput.mk 9 1 0 true]
      = some w' ∧ (5 : Int) ≤ w' :=
  ⟨by decide, runPoll_watermark_monotone 5 _ (by decide)⟩

/-- Claim C2: if a processing cycle's event query throws after the range
`[fromBlock, toBlock]` has been computed, the cycle still persists the
watermark as exactly `toBlock = min currentBlock (fromBlock + batchSize - 1)`
(not `currentBlock`), and the result is the re-raised error (constructor
`errored`), not a silently swallowed success. -/
theorem pollCycle_error_advances_watermark (w : Int) (inp : PollInput)
    (hproc : w < inp.currentBlock) (hfail : inp.queryFails = true) :
    pollCycle (some w) inp =
      (some (min inp.currentBlock (w + 1 + effBatchSize inp.batchSize - 1)),
       .errored (w + 1) (min inp.currentBlock (w + 1 + effBatchSize inp.batchSize - 1))) := by
  unfold pollCycle
  simp [not_le.mpr hproc, hfail]

/-- Witness for C2 at watermark 10, chain head 200, default batch size. -/
theorem pollCycle_error_advances_watermark_witness :
    (10 : Int) < 200 ∧
    pollCycle (some 10) ⟨200, 0, 0, true⟩ =
      (some (min (200 : Int) (10 + 1 + effBatchSize 0 - 1)),
       .errored (10 + 1) (min (200 : Int) (10 + 1 + effBatchSize 0 - 1))) :=
  ⟨by decide, pollCycle_error_advances_watermark 10 ⟨200, 0, 0, true⟩ (by decide) rfl⟩

/-- Claim C3: for every processing cycle (`currentBlock > watermark`) the
processed range is `fromBlock = watermark + 1` through
`toBlock = min currentBlock (fromBlock + batchSize - 1)` and the watermark
afterwards equals `toBlock`; when `currentBlock - watermark > batchSize`
the watermark advances by exactly `batchSize` blocks. -/
theorem pollCycle_processing_range (w : Int) (inp : PollInput)
    (hproc : w < inp.currentBlock) (hok : inp.queryFails = false) :
    pollCycle (some w) inp =
      (some (min inp.currentBlock (w + 1 + effBatchSize inp.batchSize - 1)),
       .ok (w + 1) (min inp.currentBlock (w + 1 + effBatchSize inp.batchSize - 1)))
    ∧ (effBatchSize inp.batchSize < inp.currentBlock - w →
        min inp.currentBlock (w + 1 + effBatchSize inp.batchSize - 1)
          = w + effBatchSize inp.batchSize) := by
  constructor
  · unfold pollCycle
    simp [not_le.mpr hproc, hok]
  · intro hgap
    omega

/-- Witness for C3 at the spec's end-to-end scenario 3: watermark 999,
chain head 1050, batch size 100 — the cycle processes `[1000, 1050]`
(capped by the chain head) and advances the watermark to 1050. -/
theorem pollCycle_processing_range_witness :
    (999 : Int) < 1050 ∧
    pollCycle (some 999) ⟨1050, 100, 0, false⟩ = (some 1050, .ok 1000 1050) := by
  have h := (pollCycle_processing_range 999 ⟨1050, 100, 0, false⟩ (by decide) rfl).1
  have hmin : min (1050 : Int) (999 + 1 + effBatchSize 100 - 1) = 1050 := by decide
  refine ⟨by decide, ?_⟩
  rw [h, hmin]
  decide

/-- Claim C4: whenever `currentBlock <= watermark` at the start of a
cycle (including the equality case), the cycle produces no output
(`return null`) and leaves the watermark unchanged. -/
theorem pollCycle_idle_no_output (w : Int) (inp : PollInput)
    (h : inp.currentBlock ≤ w) :
    pollCycle (some w) inp = (some w, .noNew) := by
  unfold pollCycle
  simp [h]

/-- Witness for C4 at the equality case `currentBlock = watermark = 7`. -/
theorem pollCycle_idle_no_output_witness :
    (7 : Int) ≤ 7 ∧ pollCycle (some 7) ⟨7, 0, 0, false⟩ = (some 7, .noNew) :=
  ⟨by decide, pollCycle_idle_no_output 7 ⟨7, 0, 0, false⟩ (by decide)⟩

/-- Claim C10: on the first poll (watermark unset), a configured
`startBlock` of `0` — the option's default — is treated as not supplied:
the watermark is seeded to `currentBlock - 1`; only a `startBlock`
strictly greater than `0` seeds the watermark to `startBlock - 1`
(non-positive values also fall back to `currentBlock - 1`); and
consequently, whenever the chain head is at least 1, no configuration
makes the first cycle process a range starting at block 0. -/
theorem pollCycle_startBlock_seeding (inp : PollInput)
    (hhead : 1 ≤ inp.currentBlock) :
    (inp.startBlock = 0 →
      seedLastBlock inp.startBlock inp.currentBlock = inp.currentBlock - 1)
    ∧ (0 < inp.startBlock →
      seedLastBlock inp.startBlock inp.currentBlock = inp.startBlock - 1)
    ∧ (inp.startBlock ≤ 0 →
      seedLastBlock inp.startBlock inp.currentBlock = inp.currentBlock - 1)
    ∧ (∀ f t : Int,
        (pollCycle none inp).2 = .ok f t ∨ (pollCycle none inp).2 = .errored f t →
        1 ≤ f) := by
  have hseed : 1 ≤ seedLastBlock inp.startBlock inp.currentBlock + 1 := by
    unfold seedLastBlock
    by_cases hpos : 0 < inp.startBlock
    · simp only [hpos, if_true]
      omega
    · simp only [hpos, if_false]
      omega
  refine ⟨?_, ?_, ?_, ?_⟩
  · intro h0
    simp [seedLastBlock, h0]
  · intro hpos
    simp [seedLastBlock, hpos]
  · intro hle
    simp [seedLastBlock, not_lt.mpr hle]
  · intro f t hres
    unfold pollCycle at hres
    by_cases hidle : inp.currentBlock ≤ seedLastBlock inp.startBlock inp.currentBlock
    · simp [hidle] at hres
    · rcases Bool.eq_false_or_eq_true inp.queryFails with hf | hf
      · simp [hidle, hf] at hres
        omega
      · simp [hidle, hf] at hres
        omega

/-- Witness for C10: chain head 5, `startBlock = 0` — the watermark is
seeded to 4 and the first processing cycle starts at block 5. -/
theorem pollCycle_startBlock_seeding_witness :
    (1 : Int) ≤ 5 ∧ seedLastBlock 0 5 = 5 - 1 := by
  refine ⟨by decide, ?_⟩
  exact (pollCycle_startBlock_seeding ⟨5, 0, 0, false⟩ (by decide)).1 rfl

/-! ### Network registry and RPC URL resolution

Embedding of the `NETWORKS` table from `src/types.ts` and of
`buildRpcUrl` from `src/transport/index.ts`.  Network and provider
identifiers are the string unions `NetworkId` and `RpcProvider` from
`src/types.ts`, modelled as inductives; since the identifiers are typed,
the `if (!networkConfig) throw Unknown network` branch of `buildRpcUrl`
(reachable only for a string outside the table) has no counterpart here.
Optional credential string fields are `String` with `""` for a missing
value, matching the JS falsiness tests the code performs. -/

inductive NetworkId where
  | mainnet | sepolia | goerli | holesky
  | polygon | polygonAmoy
  | arbitrum | arbitrumSepolia
  | optimism | optimismSepolia
  | base | baseSepolia
  | avalanche | avalancheFuji
  | bsc | bscTestnet
  | custom
deriving DecidableEq, Repr

inductive RpcProvider where
  | alchemy | infura | ankr | quicknode | public | custom
deriving DecidableEq, Repr

/-- The string value of a `NetworkId`, as it appears in credentials and
in error messages. -/
def networkKeyName : NetworkId → String
  | .mainnet => "mainnet"
  | .sepolia => "sepolia"
  | .goerli => "goerli"
  | .holesky => "holesky"
  | .polygon => "polygon"
  | .polygonAmoy => "polygon-amoy"
  | .arbitrum => "arbitrum"
  | .arbitrumSepolia => "arbitrum-sepolia"
  | .optimism => "optimism"
  | .optimismSepolia => "optimism-sepolia"
  | .base => "base"
  | .baseSepolia => "base-sepolia"
  | .avalanche => "avalanche"
  | .avalancheFuji => "avalanche-fuji"
  | .bsc => "bsc"
  | .bscTestnet => "bsc-testnet"
  | .custom => "custom"

/-- The string value of an `RpcProvider`. -/
def providerKeyName : RpcProvider → String
  | .alchemy => "alchemy"
  | .infura => "infura"
  | .ankr => "ankr"
  | .quicknode => "quicknode"
  | .public => "public"
  | .custom => "custom"

/-- The `rpcUrls` object of a `NetworkConfig`: per the interface in
`src/types.ts` it has only the optional keys `alchemy`, `infura`,
`ankr` and `public` — there is no `quicknode` key. -/
structure RpcUrls where
  alchemy : Option String := none
  infura : Option String := none
  ankr : Option String := none
  public : Option String := none
deriving DecidableEq, Repr

/-- The optional `wsUrls` object of a `NetworkConfig`. -/
structure WsUrls where
  alchemy : Option String := none
  infura : Option String := none
  public : Option String := none
deriving DecidableEq, Repr

/-- `NetworkConfig` from `src/types.ts`. -/
structure NetworkConfig where
  name : String
  chainId : Nat
  symbol : String
  explorer : String
  isTestnet : Bool
  supportsEIP1559 : Bool
  rpcUrls : RpcUrls
  wsUrls : Option WsUrls := none
deriving DecidableEq, Repr

/-- The static `NETWORKS` table from `src/types.ts`. -/
def NETWORKS : NetworkId → NetworkConfig
  | .mainnet =>
    { name := "Ethereum Mainnet", chainId := 1, symbol := "ETH",
      explorer := "https://etherscan.io", isTestnet := false, supportsEIP1559 := true,
      rpcUrls := { alchemy := some "eth-mainnet.g.alchemy.com/v2",
                   infura := some "mainnet.infura.io/v3",
                   ankr := some "rpc.ankr.com/eth",
                   public := some "eth.llamarpc.com" },
      wsUrls := some { alchemy := some "eth-mainnet.g.alchemy.com/v2",
                       infura := some "mainnet.infura.io/ws/v3" } }
  | .sepolia =>
    { name := "Sepolia Testnet", chainId := 11155111, symbol := "ETH",
      explorer := "https://sepolia.etherscan.io", isTestnet := true, supportsEIP1559 := true,
      rpcUrls := { alchemy := some "eth-sepolia.g.alchemy.com/v2",
                   infura := some "sepolia.infura.io/v3",
                   ankr := some "rpc.ankr.com/eth_sepolia",
                   public := some "rpc.sepolia.org" },
      wsUrls := some { alchemy := some "eth-sepolia.g.alchemy.com/v2",
                       infura := some "sepolia.infura.io/ws/v3" } }
  | .goerli =>
    { name := "Goerli Testnet (Deprecated)", chainId := 5, symbol := "ETH",
      explorer := "https://goerli.etherscan.io", isTestnet := true, supportsEIP1559 := true,
      rpcUrls := { alchemy := some "eth-goerli.g.alchemy.com/v2",
                   infura := some "goerli.infura.io/v3",
                   ankr := some "rpc.ankr.com/eth_goerli",
                   public := some "rpc.goerli.mudit.blog" } }
  | .holesky =>
    { name := "Holesky Testnet", chainId := 17000, symbol := "ETH",
      explorer := "https://holesky.etherscan.io", isTestnet := true, supportsEIP1559 := true,
      rpcUrls := { alchemy := some "eth-holesky.g.alchemy.com/v2",
                   infura := some "holesky.infura.io/v3",
                   ankr := some "rpc.ankr.com/eth_holesky",
                   public := some "ethereum-holesky.publicnode.com" } }
  | .polygon =>
    { name := "Polygon Mainnet", chainId := 137, symbol := "MATIC",
      explorer := "https://polygonscan.com", isTestnet := false, supportsEIP1559 := true,
      rpcUrls := { alchemy := some "polygon-mainnet.g.alchemy.com/v2",
                   infura := some "polygon-mainnet.infura.io/v3",
                   ankr := some "rpc.ankr.com/polygon",
                   public := some "polygon-rpc.com" } }
  | .polygonAmoy =>
    { name := "Polygon Amoy Testnet", chainId := 80002, symbol := "MATIC",
      explorer := "https://amoy.polygonscan.com", isTestnet := true, supportsEIP1559 := true,
      rpcUrls := { alchemy := some "polygon-amoy.g.alchemy.com/v2",
                   infura := some "polygon-amoy.infura.io/v3",
                   ankr := some "rpc.ankr.com/polygon_amoy",
                   public := some "rpc-amoy.polygon.technology" } }
  | .arbitrum =>
    { name := "Arbitrum One", chainId := 42161, symbol := "ETH",
      explorer := "https://arbiscan.io", isTestnet := false, supportsEIP1559 := true,
      rpcUrls := { alchemy := some "arb-mainnet.g.alchemy.com/v2",
                   infura := some "arbitrum-mainnet.infura.io/v3",
                   ankr := some "rpc.ankr.com/arbitrum",
                   public := some "arb1.arbitrum.io/rpc" } }
  | .arbitrumSepolia =>
    { name := "Arbitrum Sepolia", chainId := 421614, symbol := "ETH",
      explorer := "https://sepolia.arbiscan.io", isTestnet := true, supportsEIP1559 := true,
      rpcUrls := { alchemy := some "arb-sepolia.g.alchemy.com/v2",
                   infura := some "arbitrum-sepolia.infura.io/v3",
                   ankr := some "rpc.ankr.com/arbitrum_sepolia",
                   public := some "sepolia-rollup.arbitrum.io/rpc" } }
  | .optimism =>
    { name := "Optimism", chainId := 10, symbol := "ETH",
      explorer := "https://optimistic.etherscan.io", isTestnet := false, supportsEIP1559 := true,
      rpcUrls := { alchemy := some "opt-mainnet.g.alchemy.com/v2",
                   infura := some "optimism-mainnet.infura.io/v3",
                   ankr := some "rpc.ankr.com/optimism",
                   public := some "mainnet.optimism.io" } }
  | .optimismSepolia =>
    { name := "Optimism Sepolia", chainId := 11155420, symbol := "ETH",
      explorer := "https://sepolia-optimism.etherscan.io", isTestnet := true, supportsEIP1559 := true,
      rpcUrls := { alchemy := some "opt-sepolia.g.alchemy.com/v2",
                   infura := some "optimism-sepolia.infura.io/v3",
                   ankr := some "rpc.ankr.com/optimism_sepolia",
                   public := some "sepolia.optimism.io" } }
  | .base =>
    { name := "Base", chainId := 8453, symbol := "ETH",
      explorer := "https://basescan.org", isTestnet := false, supportsEIP1559 := true,
      rpcUrls := { alchemy := some "base-mainnet.g.alchemy.com/v2",
                   infura := some "base-mainnet.infura.io/v3",
                   ankr := some "rpc.ankr.com/base",
                   public := some "mainnet.base.org" } }
  | .baseSepolia =>
    { name := "Base Sepolia", chainId := 84532, symbol := "ETH",
      explorer := "https://sepolia.basescan.org", isTestnet := true, supportsEIP1559 := true,
      rpcUrls := { alchemy := some "base-sepolia.g.alchemy.com/v2",
                   infura := some "base-sepolia.infura.io/v3",
                   ankr := some "rpc.ankr.com/base_sepolia",
                   public := some "sepolia.base.org" } }
  | .avalanche =>
    { name := "Avalanche C-Chain", chainId := 43114, symbol := "AVAX",
      explorer := "https://snowtrace.io", isTestnet := false, supportsEIP1559 := true,
      rpcUrls := { infura := some "avalanche-mainnet.infura.io/v3",
                   ankr := some "rpc.ankr.com/avalanche",
                   public := some "api.avax.network/ext/bc/C/rpc" } }
  | .avalancheFuji =>
    { name := "Avalanche Fuji", chainId := 43113, symbol := "AVAX",
      explorer := "https://testnet.snowtrace.io", isTestnet := true, supportsEIP1559 := true,
      rpcUrls := { infura := some "avalanche-fuji.infura.io/v3",
                   ankr := some "rpc.ankr.com/avalanche_fuji",
                   public := some "api.avax-test.network/ext/bc/C/rpc" } }
  | .bsc =>
    { name := "BNB Smart Chain", chainId := 56, symbol := "BNB",
      explorer := "https://bscscan.com", isTestnet := false, supportsEIP1559 := false,
      rpcUrls := { ankr := some "rpc.ankr.com/bsc",
                   public := some "bsc-dataseed.binance.org" } }
  | .bscTestnet =>
    { name := "BNB Smart Chain Testnet", chainId := 97, symbol := "tBNB",
      explorer := "https://testnet.bscscan.com", isTestnet := true, supportsEIP1559 := false,
      rpcUrls := { ankr := some "rpc.ankr.com/bsc_testnet_chapel",
                   public := some "data-seed-prebsc-1-s1.binance.org:8545" } }
  | .custom =>
    { name := "Custom Network", chainId := 0, symbol := "ETH",
      explorer := "", isTestnet := false, supportsEIP1559 := true,
      rpcUrls := {} }

/-- JS property access `networkConfig.rpcUrls[rpcProvider]`: the
`rpcUrls` object has keys `alchemy`/`infura`/`ankr`/`public` only, so
indexing with `quicknode` or `custom` yields `undefined` (`none`). -/
def rpcUrlsLookup (u : RpcUrls) : RpcProvider → Option String
  | .alchemy => u.alchemy
  | .infura => u.infura
  | .ankr => u.ankr
  | .public => u.public
  | .quicknode => none
  | .custom => none

/-- The credential fields `buildRpcUrl` destructures. -/
structure Credentials where
  network : NetworkId
  rpcProvider : RpcProvider
  apiKey : String := ""
  customRpcUrl : String := ""
deriving DecidableEq, Repr

/-- `buildRpcUrl` from `src/transport/index.ts` (lines 34–83), with
thrown errors modelled as `Except.error` carrying the thrown message. -/
def buildRpcUrl (c : Credentials) : Except String String :=
  if c.rpcProvider = .custom ∨ c.network = .custom then
    if c.customRpcUrl = "" then
      .error "Custom RPC URL is required for custom provider/network"
    else
      .ok c.customRpcUrl
  else
    let networkConfig := NETWORKS c.network
    if c.rpcProvider = .public then
      match networkConfig.rpcUrls.public with
      | some publicUrl => .ok ("https://" ++ publicUrl)
      | none => .error ("No public RPC available for network: " ++ networkKeyName c.network)
    else if c.apiKey = "" then
      .error ("API key is required for " ++ providerKeyName c.rpcProvider ++ " provider")
    else
      match rpcUrlsLookup networkConfig.rpcUrls c.rpcProvider with
      | none =>
        .error ("Provider " ++ providerKeyName c.rpcProvider ++
          " not available for network: " ++ networkKeyName c.network)
      | some providerUrl =>
        match c.rpcProvider with
        | .alchemy => .ok ("https://" ++ providerUrl ++ "/" ++ c.apiKey)
        | .infura => .ok ("https://" ++ providerUrl ++ "/" ++ c.apiKey)
        | .ankr =>
          if c.apiKey ≠ "" then .ok ("https://" ++ providerUrl ++ "/" ++ c.apiKey)
          else .ok ("https://" ++ providerUrl)
        | .quicknode =>
          if c.customRpcUrl ≠ "" then .ok c.customRpcUrl
          else .ok ("https://" ++ providerUrl ++ "/" ++ c.apiKey)
        | _ =>
          .error ("Unknown RPC provider: " ++ providerKeyName c.rpcProvider)

/-- Claim C5 (refuted): the claim says `buildRpcUrl` with provider
`ankr` and no API key returns `https://` + the network's ankr template
with the key segment omitted.  In the code the `if (!apiKey) throw`
guard runs before the `switch`, so the keyless-ankr branch (and the
comment "Ankr can work with or without API key" above it) is dead code:
for every named network the call throws `API key is required for ankr
provider` instead.  Shown here: mainnet does define the ankr template,
yet the keyless call errors, and the same holds on every non-custom
network. -/
theorem buildRpcUrl_ankr_no_key_fails :
    (NETWORKS .mainnet).rpcUrls.ankr = some "rpc.ankr.com/eth" ∧
    buildRpcUrl ⟨.mainnet, .ankr, "", ""⟩ =
      .error "API key is required for ankr provider" ∧
    ∀ n : NetworkId, n = .custom ∨
      buildRpcUrl ⟨n, .ankr, "", ""⟩ =
        .error "API key is required for ankr provider" := by
  refine ⟨rfl, rfl, ?_⟩
  intro n
  cases n
  case custom => exact Or.inl rfl
  all_goals exact Or.inr rfl

/-- Claim C6 (refuted): the claim says `buildRpcUrl` with provider
`quicknode` on a named network prefers a supplied `customRpcUrl`.  In
the code `networkConfig.rpcUrls[rpcProvider]` is looked up before the
`switch`, and no network's `rpcUrls` object has a `quicknode` key (the
`NetworkConfig` interface does not even declare one), so the lookup is
always `undefined` and the call throws `Provider quicknode not
available` (or `API key is required` when the key is also missing); the
`case 'quicknode'` branch that would prefer `customRpcUrl` is dead
code. -/
theorem buildRpcUrl_quicknode_named_fails :
    buildRpcUrl ⟨.mainnet, .quicknode, "KEY123", "https://tenant.example/abc"⟩
      = .error "Provider quicknode not available for network: mainnet" ∧
    buildRpcUrl ⟨.mainnet, .quicknode, "", "https://tenant.example/abc"⟩
      = .error "API key is required for quicknode provider" ∧
    ∀ n : NetworkId, rpcUrlsLookup (NETWORKS n).rpcUrls .quicknode = none := by
  refine ⟨rfl, rfl, ?_⟩
  intro n
  cases n <;> rfl

/-! ### Token / NFT transfer filters

Embedding of the `tokenTransfer` / `nftTransfer` branches of
`EthereumTrigger.poll` (Ethereum.node.ts lines 3550–3678).  Both
branches build the same `(fromFilter, toFilter)` pair for
`contract.filters.Transfer(fromFilter, toFilter)` and run the same
per-log post-filter before pushing an output record; a decoded log is
modelled by its two indexed addresses (`from`/`to` are Lean keywords,
hence the field names).  Logs returned by a `Transfer`-filter query are
`EventLog`s carrying decoded `args`, so `args` is modelled as always
present (`if (!args) continue` is the defensive guard for the contrary
case). -/

/-- JS `String.prototype.toLowerCase` restricted to the strings involved
here: lowercase each character (on ASCII data this is exactly what the
JS call does). -/
def jsToLower (s : String) : String := String.mk (s.data.map Char.toLower)

/-- The `tokenFilterType` node parameter: `'all' | 'from' | 'to' |
'either'`. -/
inductive TokenFilterType where
  | all | fromAddr | toAddr | either
deriving DecidableEq, Repr

/-- A decoded `Transfer` event log: `args[0]` (`from`) and `args[1]`
(`to`). -/
structure TransferLog where
  fromAddr : String
  toAddr : String
deriving DecidableEq, Repr

/-- The `(fromFilter, toFilter)` pair passed to
`contract.filters.Transfer(fromFilter, toFilter)`: set only for filter
types `from` and `to` when a filter address is supplied; `all` and
`either` query unconstrained. -/
def transferQueryFilter (filterType : TokenFilterType) (filterAddress : String) :
    Option String × Option String :=
  if filterAddress ≠ "" then
    match filterType with
    | .fromAddr => (some filterAddress, none)
    | .toAddr => (none, some filterAddress)
    | _ => (none, none)
  else
    (none, none)

/-- Whether the loop body keeps a decoded log (`continue` drops it):
only filter type `either` with a non-empty filter address drops logs,
comparing the lowercased `from` and `to` against the lowercased filter
address. -/
def transferLogKept (filterType : TokenFilterType) (filterAddress : String)
    (log : TransferLog) : Bool :=
  if filterType = .either ∧ filterAddress ≠ "" then
    if jsToLower log.fromAddr ≠ jsToLower filterAddress ∧
        jsToLower log.toAddr ≠ jsToLower filterAddress then
      false
    else
      true
  else
    true

/-- The logs of a cycle that survive the post-filter and are pushed as
output records, in query order. -/
def transferEmitted (filterType : TokenFilterType) (filterAddress : String)
    (logs : List TransferLog) : List TransferLog :=
  logs.filter (transferLogKept filterType filterAddress)

/-- Claim C9: with `tokenFilterType = 'either'` and a non-empty filter
address, the cycle issues an unconstrained `Transfer` query (no
`from`/`to` filter) and emits exactly those logs whose `from` or `to`
equals the filter address case-insensitively; all other logs are
dropped by the post-filter. -/
theorem transferEither_unconstrained_post_filter (filterAddress : String)
    (logs : List TransferLog) (hfa : filterAddress ≠ "") :
    transferQueryFilter .either filterAddress = (none, none) ∧
    transferEmitted .either filterAddress logs =
      logs.filter (fun l =>
        decide (jsToLower l.fromAddr = jsToLower filterAddress) ||
        decide (jsToLower l.toAddr = jsToLower filterAddress)) := by
  constructor
  · simp [transferQueryFilter, hfa]
  · unfold transferEmitted
    apply List.filter_congr
    intro l _
    unfold transferLogKept
    simp only [hfa, ne_eq, not_false_iff, and_true, if_true, true_and]
    by_cases h1 : jsToLower l.fromAddr = jsToLower filterAddress <;>
      by_cases h2 : jsToLower l.toAddr = jsToLower filterAddress <;>
      simp [h1, h2]

/-- Witness for C9 at the spec's end-to-end scenario 4 (filter address
`0xABC`, transfers `{from: 0xABC, to: 0xDEF}` and
`{from: 0x111, to: 0x222}`), extended by a third log matched through
its `to` field with different letter case. -/
theorem transferEither_unconstrained_post_filter_witness :
    ("0xABC" : String) ≠ "" ∧
    transferQueryFilter .either "0xABC" = (none, none) ∧
    transferEmitted .either "0xABC"
        [⟨"0xABC", "0xDEF"⟩, ⟨"0x111", "0x222"⟩, ⟨"0xDEF", "0xabc"⟩]
      = [⟨"0xABC", "0xDEF"⟩, ⟨"0xDEF", "0xabc"⟩] := by
  have h := transferEither_unconstrained_post_filter "0xABC"
    [⟨"0xABC", "0xDEF"⟩, ⟨"0x111", "0x222"⟩, ⟨"0xDEF", "0xabc"⟩] (by decide)
  refine ⟨by decide, h.1, ?_⟩
  rw [h.2]
  decide

/-! ### Keccak-256

`resolveAddress` in `src/transport/index.ts` delegates hex-address
validation and EIP-55 checksumming to `isAddress` / `getAddress` of the
`ethers` library (v6).  Those in turn hash the 40 lowercase hex
characters of the address with Keccak-256.  The permutation below is the
standard Keccak-f[1600] on 25 lanes of 64 bits, lanes as `Nat` reduced
mod `2^64`; it is used here only on single-block messages (an address
body is 40 bytes, far below the 136-byte rate). -/

/-- Round constants of Keccak-f[1600]. -/
def keccakRC : List Nat :=
  [0x0000000000000001, 0x0000000000008082, 0x800000000000808a, 0x8000000080008000,
   0x000000000000808b, 0x0000000080000001, 0x8000000080008081, 0x8000000000008009,
   0x000000000000008a, 0x0000000000000088, 0x0000000080008009, 0x000000008000000a,
   0x000000008000808b, 0x800000000000008b, 0x8000000000008089, 0x8000000000008003,
   0x8000000000008002, 0x8000000000000080, 0x000000000000800a, 0x800000008000000a,
   0x8000000080008081, 0x8000000000008080, 0x0000000080000001, 0x8000000080008008]

/-- Rotation offset of the rho step at flat index `x + 5 * y` (the
offset at index 0 is 0). -/
def rhoOffsetAt : Nat → Nat
  | 1 => 1
  | 2 => 62
  | 3 => 28
  | 4 => 27
  | 5 => 36
  | 6 => 44
  | 7 => 6
  | 8 => 55
  | 9 => 20
  | 10 => 3
  | 11 => 10
  | 12 => 43
  | 13 => 25
  | 14 => 39
  | 15 => 41
  | 16 => 45
  | 17 => 15
  | 18 => 21
  | 19 => 8
  | 20 => 18
  | 21 => 2
  | 22 => 61
  | 23 => 56
  | 24 => 14
  | _ => 0

/-- 64-bit left rotation. -/
def rotl64 (x n : Nat) : Nat :=
  ((x <<< n) ||| (x >>> (64 - n))) % (2 ^ 64)

/-- Lane `(x, y)` of a 25-lane state. -/
def lane (s : List Nat) (x y : Nat) : Nat := s.getD (x + 5 * y) 0

/-- Theta step. -/
def keccakTheta (s : List Nat) : List Nat :=
  let c := (List.range 5).map fun x =>
    lane s x 0 ^^^ lane s x 1 ^^^ lane s x 2 ^^^ lane s x 3 ^^^ lane s x 4
  let d := (List.range 5).map fun x =>
    (c.getD ((x + 4) % 5) 0) ^^^ rotl64 (c.getD ((x + 1) % 5) 0) 1
  (List.range 25).map fun i => s.getD i 0 ^^^ d.getD (i % 5) 0

/-- Combined rho and pi steps: the lane written at `(X, Y)` is the
rotated lane read at `(x, y)` with `y = X` and `x = 3 * (Y + 2 * X) mod 5`
(the inverse of the pi mapping `(x, y) ↦ (y, 2x + 3y mod 5)`). -/
def keccakRhoPi (s : List Nat) : List Nat :=
  (List.range 25).map fun j =>
    let bx := j % 5
    let byy := j / 5
    let x := (3 * (byy + 2 * bx)) % 5
    let y := bx
    rotl64 (lane s x y) (rhoOffsetAt (x + 5 * y))

/-- Chi step. -/
def keccakChi (s : List Nat) : List Nat :=
  (List.range 25).map fun j =>
    let x := j % 5
    let y := j / 5
    lane s x y ^^^ ((lane s ((x + 1) % 5) y ^^^ (2 ^ 64 - 1)) &&& lane s ((x + 2) % 5) y)

/-- Iota step for round `r`. -/
def keccakIota (r : Nat) (s : List Nat) : List Nat :=
  (List.range 25).map fun j =>
    if j = 0 then s.getD 0 0 ^^^ keccakRC.getD r 0 else s.getD j 0

/-- The full 24-round Keccak-f[1600] permutation. -/
def keccakF (s : List Nat) : List Nat :=
  (List.range 24).foldl
    (fun st r => keccakIota r (keccakChi (keccakRhoPi (keccakTheta st)))) s

/-- Little-endian bytes to a lane value. -/
def leBytesToNat (bs : List Nat) : Nat := bs.foldr (fun b acc => b + 256 * acc) 0

/-- A lane value to its 8 little-endian bytes. -/
def natToLeBytes (n : Nat) : List Nat := (List.range 8).map fun i => (n >>> (8 * i)) % 256

/-- Keccak multi-rate padding (`0x01 … 0x80`) of a message shorter than
the 136-byte rate to one full block. -/
def padBlock (msg : List Nat) : List Nat :=
  let padLen := 136 - msg.length
  if padLen = 1 then msg ++ [0x81]
  else msg ++ [0x01] ++ List.replicate (padLen - 2) 0 ++ [0x80]

/-- A 136-byte block as 17 little-endian 64-bit lanes. -/
def toLanes (bs : List Nat) : List Nat :=
  (List.range 17).map fun i => leBytesToNat ((bs.drop (8 * i)).take 8)

/-- Keccak-256 of a message of fewer than 136 bytes (a single absorbed
block, which covers the only use in the address checksum: the 40-byte
address body): absorb the padded block into the all-zero state, permute,
and squeeze the first 32 bytes. -/
def keccak256 (msg : List Nat) : List Nat :=
  let st := keccakF (toLanes (padBlock msg) ++ List.replicate 8 0)
  natToLeBytes (st.getD 0 0) ++ natToLeBytes (st.getD 1 0) ++
    natToLeBytes (st.getD 2 0) ++ natToLeBytes (st.getD 3 0)

/-! ### EIP-55 address checksumming and `resolveAddress`

Embedding of ethers v6 `getAddress` / `isAddress` (hex-address path) and
of `resolveAddress` from `src/transport/index.ts` (lines 272–291).
Strings are handled through their character lists (`String.data`);
`Char.toLower` / `Char.toUpper` coincide with the JS per-character
`toLowerCase()` / `toUpperCase()` on the ASCII data involved.

The `ethers` library is an external collaborator of this repository;
the model covers its documented hex-address contract — the regex
`^(0x)?[0-9a-fA-F]{40}$`, the EIP-55 checksum computation of
`getChecksumAddress`, and the mixed-case checksum assertion — which is
the path `resolveAddress`'s address/ENS contract exercises.  (ethers
additionally accepts ICAP `XE…` strings in `getAddress`; that legacy
format is outside the address-or-ENS contract modelled here.) -/

/-- `[0-9a-fA-F]`. -/
def isHexDigitChar (c : Char) : Bool :=
  (48 ≤ c.toNat && c.toNat ≤ 57) || (97 ≤ c.toNat && c.toNat ≤ 102) ||
    (65 ≤ c.toNat && c.toNat ≤ 70)

/-- `[a-f]`. -/
def isLowerHexLetter (c : Char) : Bool := 97 ≤ c.toNat && c.toNat ≤ 102

/-- `[A-F]`. -/
def isUpperHexLetter (c : Char) : Bool := 65 ≤ c.toNat && c.toNat ≤ 70

/-- `[0-9a-f]`: a character of a lowercased address body. -/
def isLowerHex (c : Char) : Bool := (48 ≤ c.toNat && c.toNat ≤ 57) || isLowerHexLetter c

/-- Does the character list start with the literal prefix `0x`? -/
def startsWith0x : List Char → Bool
  | '0' :: 'x' :: _ => true
  | _ => false

/-- The address body: the characters after an optional `0x` prefix. -/
def addressBody (cs : List Char) : List Char :=
  if startsWith0x cs then cs.drop 2 else cs

/-- The ethers address regex `^(0x)?[0-9a-fA-F]{40}$`. -/
def matchesAddressRegex (cs : List Char) : Bool :=
  (addressBody cs).length == 40 && (addressBody cs).all isHexDigitChar

/-- ethers: `if (!address.startsWith("0x")) { address = "0x" + address; }`. -/
def normalize0x (cs : List Char) : List Char :=
  if startsWith0x cs then cs else '0' :: 'x' :: cs

/-- The ethers mixed-case regex `([A-F].*[a-f])|([a-f].*[A-F])`: it
matches exactly when the string contains both an uppercase and a
lowercase hex letter (in either order one alternative applies). -/
def mixedCaseHex (cs : List Char) : Bool :=
  cs.any isUpperHexLetter && cs.any isLowerHexLetter

/-- Each hash byte as its two big-endian nibbles (`hashed[i >> 1] >> 4`
then `hashed[i >> 1] & 0x0f` in the ethers loop). -/
def hashNibbles (bytes : List Nat) : List Nat :=
  bytes.foldr (fun b acc => b / 16 :: b % 16 :: acc) []

/-- ethers `getChecksumAddress`: lowercase the 40 body characters, hash
their ASCII codes with Keccak-256, and uppercase each character whose
corresponding hash nibble is at least 8.  (The code lowercases the whole
`0x…` string first and then takes `substring(2)`; lowercasing only the
body is the same thing.) -/
def getChecksumChars (address : List Char) : List Char :=
  let chars := (address.drop 2).map Char.toLower
  let hashed := keccak256 (chars.map Char.toNat)
  '0' :: 'x' :: List.zipWith
    (fun c nb => if 8 ≤ nb then Char.toUpper c else c) chars (hashNibbles hashed)

/-- ethers `getAddress` on a character list: require the address regex,
normalize the `0x` prefix, compute the checksummed form, and reject a
mixed-case input whose checksum does not match exactly
(`assertArgument(!address.match(mixed) || result === address, "bad
address checksum")`); thrown errors become `Except.error`. -/
def getAddressChars (cs : List Char) : Except String (List Char) :=
  if matchesAddressRegex cs then
    if mixedCaseHex (normalize0x cs) ∧ getChecksumChars (normalize0x cs) ≠ normalize0x cs then
      .error "bad address checksum"
    else
      .ok (getChecksumChars (normalize0x cs))
  else
    .error "invalid address"

/-- ethers `isAddress` on a character list: `try getAddress; return
true` / `catch return false`. -/
def isAddressChars (cs : List Char) : Bool :=
  match getAddressChars cs with
  | .ok _ => true
  | .error _ => false

/-- ethers `getAddress` on strings. -/
def getAddress (s : String) : Except String String :=
  (getAddressChars s.data).map String.mk

/-- ethers `isAddress` on strings. -/
def isAddress (s : String) : Bool := isAddressChars s.data

/-- `resolveAddress` from `src/transport/index.ts`: return the
checksummed form of a valid address; otherwise, for a dotted input, ask
the provider for an ENS resolution (the provider's `resolveName` is the
function argument — `none` models a `null` resolution); otherwise fail.
`String(addressOrEns).indexOf('.') !== -1` is the dot test. -/
def resolveAddress (addressOrEns : String) (resolveName : String → Option String) :
    Except String String :=
  if isAddress addressOrEns then
    getAddress addressOrEns
  else if addressOrEns.data.any (· == '.') then
    match resolveName addressOrEns with
    | some resolved => .ok resolved
    | none => .error ("Could not resolve ENS name: " ++ addressOrEns)
  else
    .error ("Invalid address or ENS name: " ++ addressOrEns)

/-! #### Character-level facts -/

theorem charToNat_ofNat {n : Nat} (h : n < 55296) : (Char.ofNat n).toNat = n := by
  have hv : n.isValidChar := Or.inl h
  unfold Char.ofNat
  rw [dif_pos hv]
  rfl

theorem toLower_of_isLowerHex (c : Char) (h : isLowerHex c = true) :
    Char.toLower c = c := by
  simp only [isLowerHex, isLowerHexLetter, Bool.or_eq_true, Bool.and_eq_true,
    decide_eq_true_eq] at h
  unfold Char.toLower
  rw [if_neg]
  omega

theorem toLower_toUpper_of_isLowerHex (c : Char) (h : isLowerHex c = true) :
    Char.toLower (Char.toUpper c) = c := by
  simp only [isLowerHex, isLowerHexLetter, Bool.or_eq_true, Bool.and_eq_true,
    decide_eq_true_eq] at h
  unfold Char.toUpper
  rcases h with h | h
  · rw [if_neg (by omega)]
    unfold Char.toLower
    rw [if_neg (by omega)]
  · rw [if_pos (by omega)]
    unfold Char.toLower
    rw [charToNat_ofNat (by omega), if_pos (by omega)]
    have : c.toNat - 32 + 32 = c.toNat := by omega
    rw [this, Char.ofNat_toNat]

theorem isLowerHex_toLower (c : Char) (h : isHexDigitChar c = true) :
    isLowerHex (Char.toLower c) = true := by
  simp only [isHexDigitChar, Bool.or_eq_true, Bool.and_eq_true, decide_eq_true_eq] at h
  unfold Char.toLower
  rcases h with (h | h) | h
  · rw [if_neg (by omega)]
    simp only [isLowerHex, isLowerHexLetter, Bool.or_eq_true, Bool.and_eq_true,
      decide_eq_true_eq]
    omega
  · rw [if_neg (by omega)]
    simp only [isLowerHex, isLowerHexLetter, Bool.or_eq_true, Bool.and_eq_true,
      decide_eq_true_eq]
    omega
  · rw [if_pos (by omega)]
    simp only [isLowerHex, isLowerHexLetter, Bool.or_eq_true, Bool.and_eq_true,
      decide_eq_true_eq]
    rw [charToNat_ofNat (by omega)]
    omega

theorem isHexDigitChar_toUpper_of_isLowerHex (c : Char) (h : isLowerHex c = true) :
    isHexDigitChar (Char.toUpper c) = true := by
  simp only [isLowerHex, isLowerHexLetter, Bool.or_eq_true, Bool.and_eq_true,
    decide_eq_true_eq] at h
  unfold Char.toUpper
  rcases h with h | h
  · rw [if_neg (by omega)]
    simp only [isHexDigitChar, Bool.or_eq_true, Bool.and_eq_true, decide_eq_true_eq]
    omega
  · rw [if_pos (by omega)]
    simp only [isHexDigitChar, Bool.or_eq_true, Bool.and_eq_true, decide_eq_true_eq]
    rw [charToNat_ofNat (by omega)]
    omega

theorem isHexDigitChar_of_isLowerHex (c : Char) (h : isLowerHex c = true) :
    isHexDigitChar c = true := by
  simp only [isLowerHex, isLowerHexLetter, Bool.or_eq_true, Bool.and_eq_true,
    decide_eq_true_eq] at h
  simp only [isHexDigitChar, Bool.or_eq_true, Bool.and_eq_true, decide_eq_true_eq]
  omega

/-! #### List-level facts -/

theorem keccak256_length (msg : List Nat) : (keccak256 msg).length = 32 := by
  simp [keccak256, natToLeBytes]

theorem hashNibbles_length (bts : List Nat) :
    (hashNibbles bts).length = 2 * bts.length := by
  induction bts with
  | nil => rfl
  | cons hd tl ih =>
    have hstep : hashNibbles (hd :: tl) = hd / 16 :: hd % 16 :: hashNibbles tl := rfl
    rw [hstep, List.length_cons, List.length_cons, ih, List.length_cons]
    omega

theorem zipWithCase_map_toLower (chars : List Char) (nibs : List Nat)
    (hlow : ∀ c ∈ chars, isLowerHex c = true) (hlen : chars.length ≤ nibs.length) :
    (List.zipWith (fun c nb => if 8 ≤ nb then Char.toUpper c else c) chars nibs).map
      Char.toLower = chars := by
  induction chars generalizing nibs with
  | nil => simp
  | cons c cs ih =>
    cases nibs with
    | nil => simp at hlen
    | cons nb ns =>
      simp only [List.zipWith_cons_cons, List.map_cons]
      have hc := hlow c (List.mem_cons_self c cs)
      congr 1
      · by_cases hnb : 8 ≤ nb
        · rw [if_pos hnb]
          exact toLower_toUpper_of_isLowerHex c hc
        · rw [if_neg hnb]
          exact toLower_of_isLowerHex c hc
      · refine ih ns (fun d hd => hlow d (List.mem_cons_of_mem c hd)) ?_
        simp only [List.length_cons] at hlen
        omega

theorem zipWithCase_all_hex (chars : List Char) (nibs : List Nat)
    (hlow : ∀ c ∈ chars, isLowerHex c = true) :
    ∀ d ∈ List.zipWith (fun c nb => if 8 ≤ nb then Char.toUpper c else c) chars nibs,
      isHexDigitChar d = true := by
  induction chars generalizing nibs with
  | nil => simp
  | cons c cs ih =>
    cases nibs with
    | nil => simp
    | cons nb ns =>
      intro d hd
      simp only [List.zipWith_cons_cons, List.mem_cons] at hd
      rcases hd with hd | hd
      · subst hd
        have hc := hlow c (List.mem_cons_self c cs)
        by_cases hnb : 8 ≤ nb
        · rw [if_pos hnb]
          exact isHexDigitChar_toUpper_of_isLowerHex c hc
        · rw [if_neg hnb]
          exact isHexDigitChar_of_isLowerHex c hc
      · exact ih ns (fun e he => hlow e (List.mem_cons_of_mem c he)) d hd

/-! #### Structure of the checksummed result -/

theorem startsWith0x_normalize0x (cs : List Char) :
    startsWith0x (normalize0x cs) = true := by
  unfold normalize0x
  by_cases h : startsWith0x cs = true
  · rw [if_pos h]
    exact h
  · rw [if_neg h]
    rfl

theorem normalize0x_of_startsWith0x {cs : List Char} (h : startsWith0x cs = true) :
    normalize0x cs = cs := by
  unfold normalize0x
  rw [if_pos h]

theorem drop2_normalize0x (cs : List Char) :
    (normalize0x cs).drop 2 = addressBody cs := by
  unfold normalize0x addressBody
  by_cases h : startsWith0x cs = true
  · rw [if_pos h, if_pos h]
  · rw [if_neg h, if_neg h]
    rfl

theorem getChecksumChars_normalize (cs : List Char) :
    getChecksumChars (normalize0x cs) =
      '0' :: 'x' :: List.zipWith (fun c nb => if 8 ≤ nb then Char.toUpper c else c)
        ((addressBody cs).map Char.toLower)
        (hashNibbles (keccak256 (((addressBody cs).map Char.toLower).map Char.toNat))) := by
  unfold getChecksumChars
  rw [drop2_normalize0x]

theorem getChecksumChars_congr {a b : List Char}
    (h : (a.drop 2).map Char.toLower = (b.drop 2).map Char.toLower) :
    getChecksumChars a = getChecksumChars b := by
  unfold getChecksumChars
  rw [h]

/-- The checksummed form of a regex-valid address is itself a
regex-valid, checksum-stable address, so `getAddress` accepts it and
returns it unchanged. -/
theorem getAddressChars_result_fixed (cs : List Char)
    (hreg : matchesAddressRegex cs = true) :
    getAddressChars (getChecksumChars (normalize0x cs)) =
      .ok (getChecksumChars (normalize0x cs)) := by
  have hreg' := hreg
  simp only [matchesAddressRegex, Bool.and_eq_true, beq_iff_eq, List.all_eq_true] at hreg'
  obtain ⟨hlen, hhex⟩ := hreg'
  set B := (addressBody cs).map Char.toLower with hB
  have hBlow : ∀ c ∈ B, isLowerHex c = true := by
    intro c hc
    rw [hB] at hc
    simp only [List.mem_map] at hc
    obtain ⟨d, hd, rfl⟩ := hc
    exact isLowerHex_toLower d (hhex d hd)
  have hBlen : B.length = 40 := by
    rw [hB, List.length_map]
    exact hlen
  set nibs := hashNibbles (keccak256 (B.map Char.toNat)) with hnibs
  have hnibslen : nibs.length = 64 := by
    rw [hnibs, hashNibbles_length, keccak256_length]
  set Z := List.zipWith (fun c nb => if 8 ≤ nb then Char.toUpper c else c) B nibs with hZ
  have hr : getChecksumChars (normalize0x cs) = '0' :: 'x' :: Z := by
    rw [getChecksumChars_normalize]
  have hZlow : Z.map Char.toLower = B := by
    rw [hZ]
    exact zipWithCase_map_toLower B nibs hBlow (by omega)
  have hZlen : Z.length = 40 := by
    rw [hZ, List.length_zipWith]
    omega
  have hZhex : ∀ d ∈ Z, isHexDigitChar d = true := by
    rw [hZ]
    exact zipWithCase_all_hex B nibs hBlow
  have hrs : startsWith0x ('0' :: 'x' :: Z) = true := rfl
  have hbody : addressBody ('0' :: 'x' :: Z) = Z := by
    unfold addressBody
    rw [if_pos hrs]
    rfl
  have hrreg : matchesAddressRegex ('0' :: 'x' :: Z) = true := by
    simp only [matchesAddressRegex, hbody, Bool.and_eq_true, beq_iff_eq, List.all_eq_true]
    exact ⟨hZlen, hZhex⟩
  have hfix : getChecksumChars ('0' :: 'x' :: Z) = '0' :: 'x' :: Z := by
    have hcg : getChecksumChars ('0' :: 'x' :: Z) = getChecksumChars (normalize0x cs) := by
      apply getChecksumChars_congr
      rw [drop2_normalize0x]
      show Z.map Char.toLower = (addressBody cs).map Char.toLower
      rw [hZlow, hB]
    rw [hcg, hr]
  rw [hr]
  unfold getAddressChars
  rw [if_pos hrreg, normalize0x_of_startsWith0x hrs]
  rw [if_neg (fun hcond => hcond.2 hfix)]
  rw [hfix]

/-- Unpacking `isAddress = true`: `getAddress` succeeded and returned
the checksummed form of the normalized input, and the input matched the
address regex. -/
theorem getAddressChars_of_isAddressChars {cs : List Char}
    (h : isAddressChars cs = true) :
    getAddressChars cs = .ok (getChecksumChars (normalize0x cs)) ∧
    matchesAddressRegex cs = true := by
  unfold isAddressChars at h
  by_cases hreg : matchesAddressRegex cs = true
  · refine ⟨?_, hreg⟩
    unfold getAddressChars at h ⊢
    rw [if_pos hreg] at h ⊢
    by_cases hcond : mixedCaseHex (normalize0x cs) = true ∧
        getChecksumChars (normalize0x cs) ≠ normalize0x cs
    · rw [if_pos hcond] at h
      simp at h
    · rw [if_neg hcond]
  · exfalso
    unfold getAddressChars at h
    rw [if_neg hreg] at h
    simp at h

set_option maxRecDepth 10000 in
/-- Sanity check of the embedded Keccak/EIP-55 pipeline against the
checksummed address the repository's own unit tests use
(`src/utils/index.test.ts`, `validAddress`). -/
theorem getAddress_test_vector :
    isAddress "0xd8da6bf26964af9d7eed9e03e53415d37aa96045" = true ∧
    String.mk (getChecksumChars
        (normalize0x "0xd8da6bf26964af9d7eed9e03e53415d37aa96045".data)) =
      "0xd8dA6BF26964aF9D7eEd9e03E53415D37aA96045" :=
  ⟨by decide, by decide⟩

/-- Claim C7: for every syntactically valid hex address input
(lowercase, uppercase, or already checksummed — exactly the inputs
`isAddress` accepts), `resolveAddress` returns the EIP-55 checksummed
form, does so independently of the name-lookup function (no network
call), and is idempotent: resolving the returned address again yields
the same result. -/
theorem resolveAddress_checksum_idempotent (x : String)
    (f g : String → Option String) (h : isAddress x = true) :
    resolveAddress x f =
      Except.ok (String.mk (getChecksumChars (normalize0x x.data))) ∧
    resolveAddress x f = resolveAddress x g ∧
    (resolveAddress x f).bind (fun a => resolveAddress a f) = resolveAddress x f := by
  have h' : isAddressChars x.data = true := h
  obtain ⟨hok, hreg⟩ := getAddressChars_of_isAddressChars h'
  have hval : ∀ k : String → Option String,
      resolveAddress x k = .ok (String.mk (getChecksumChars (normalize0x x.data))) := by
    intro k
    unfold resolveAddress
    rw [if_pos h]
    unfold getAddress
    rw [hok]
    rfl
  refine ⟨hval f, by rw [hval f, hval g], ?_⟩
  rw [hval f]
  show resolveAddress (String.mk (getChecksumChars (normalize0x x.data))) f =
    Except.ok (String.mk (getChecksumChars (normalize0x x.data)))
  have hfix := getAddressChars_result_fixed x.data hreg
  have hdata : (String.mk (getChecksumChars (normalize0x x.data))).data =
      getChecksumChars (normalize0x x.data) := rfl
  have hisr : isAddress (String.mk (getChecksumChars (normalize0x x.data))) = true := by
    unfold isAddress isAddressChars
    rw [hdata, hfix]
  unfold resolveAddress
  rw [if_pos hisr]
  unfold getAddress
  rw [hdata, hfix]
  rfl

/-- Witness for C7 at the lowercase form of the address used by the
repository's own unit tests; the checksummed result and the idempotence
equation are obtained by applying the theorem. -/
theorem resolveAddress_checksum_idempotent_witness :
    isAddress "0xd8da6bf26964af9d7eed9e03e53415d37aa96045" = true ∧
    resolveAddress "0xd8da6bf26964af9d7eed9e03e53415d37aa96045" (fun _ => none) =
      Except.ok (String.mk (getChecksumChars
        (normalize0x "0xd8da6bf26964af9d7eed9e03e53415d37aa96045".data))) ∧
    (resolveAddress "0xd8da6bf26964af9d7eed9e03e53415d37aa96045" (fun _ => none)).bind
        (fun a => resolveAddress a (fun _ => none)) =
      resolveAddress "0xd8da6bf26964af9d7eed9e03e53415d37aa96045" (fun _ => none) := by
  have h := resolveAddress_checksum_idempotent "0xd8da6bf26964af9d7eed9e03e53415d37aa96045"
    (fun _ => none) (fun _ => none) (by decide)
  exact ⟨by decide, h.1, h.2.2⟩

/-- Claim C8: an input that is neither a valid address nor contains a
dot makes `resolveAddress` fail with the invalid-address error, and the
name-lookup function is never consulted (the result is independent of
it). -/
theorem resolveAddress_invalid_fails_no_lookup (x : String)
    (f g : String → Option String) (hx : isAddress x = false)
    (hdot : x.data.any (· == '.') = false) :
    resolveAddress x f = .error ("Invalid address or ENS name: " ++ x) ∧
    resolveAddress x f = resolveAddress x g := by
  have hx' : ¬ (isAddress x = true) := by simp [hx]
  have hdot' : ¬ (x.data.any (· == '.') = true) := by simp [hdot]
  have he : ∀ k : String → Option String,
      resolveAddress x k = .error ("Invalid address or ENS name: " ++ x) := by
    intro k
    unfold resolveAddress
    rw [if_neg hx', if_neg hdot']
  exact ⟨he f, by rw [he f, he g]⟩

/-- Witness for C8 at the spec's end-to-end scenario 5 input `0xZZZ`
(invalid hex, no dot). -/
theorem resolveAddress_invalid_fails_no_lookup_witness :
    isAddress "0xZZZ" = false ∧
    ("0xZZZ".data.any (· == '.')) = false ∧
    resolveAddress "0xZZZ" (fun _ => none) =
      .error ("Invalid address or ENS name: " ++ "0xZZZ") :=
  ⟨by decide, by decide,
    (resolveAddress_invalid_fails_no_lookup "0xZZZ" (fun _ => none) (fun _ => some "x")
      (by decide) (by decide)).1⟩

end EthereumNode
